import Mathlib

/-!
Shallow embedding of the APIServiceRegistrationController
(`vendor/k8s.io/kubernetes/staging/src/k8s.io/kube-aggregator/pkg/apiserver/apiservice_controller.go`).

The controller reconciles API service registrations against an external
handler manager.  The embedding models lister caches as functions, the
handler manager as a trace of calls produced by `sync`, and the worker
loop step `processNextWorkItem` as a trace of queue operations.
-/

namespace KubeAggregator

/-- Reference to a backing service carried inside a registration spec
(the apiregistration `ServiceReference` with its `Namespace` and `Name`
fields, the only ones this controller reads). -/
structure ServiceReference where
  Namespace : String
  Name : String
deriving DecidableEq, Repr

/-- The part of an APIService spec the controller reads: the optional
backing-service reference `Spec.Service`. -/
structure APIServiceSpec where
  Service : Option ServiceReference
deriving DecidableEq, Repr

/-- An API service registration.  `Name` is its unique name (the queue
key for the cluster-scoped object).  `Available` models the boolean-valued
Available condition, which is derived externally and read-only here. -/
structure APIService where
  Name : String
  Spec : APIServiceSpec
  Available : Bool
deriving DecidableEq, Repr

/-- Modelled from the spec: `apiregistration.IsAPIServiceConditionTrue`
(vendored code of this repository that is not under `src/`) tests whether
the registration's `Available` condition is true; the spec describes this
condition as boolean-valued and read-only to the controller, so it is
modelled as the registration's `Available` Bool field. -/
def IsAPIServiceConditionTrue (apiService : APIService) : Bool :=
  apiService.Available

/-- The k8s core service type string constant `api.ServiceTypeClusterIP`. -/
def ServiceTypeClusterIP : String := "ClusterIP"

/-- The k8s core service type string constant `api.ServiceTypeNodePort`. -/
def ServiceTypeNodePort : String := "NodePort"

/-- The k8s core service type string constant `api.ServiceTypeLoadBalancer`. -/
def ServiceTypeLoadBalancer : String := "LoadBalancer"

/-- The part of a backing service's spec the controller reads: its type
string and its cluster-assigned address `ClusterIP`. -/
structure ServiceSpec where
  Type' : String
  ClusterIP : String
deriving DecidableEq, Repr

/-- A backing network service, identified by `(Namespace, Name)`. -/
structure Service where
  Namespace : String
  Name : String
  Spec : ServiceSpec
deriving DecidableEq, Repr

/-- Result of the registration-cache lookup `apiServiceLister.Get(key)`:
Go returns `(obj, err)` where `apierrors.IsNotFound(err)` distinguishes
the not-found error from any other error. -/
inductive GetResult (α : Type) where
  | found (obj : α)
  | notFound
  | otherError (msg : String)
deriving DecidableEq, Repr

/-- The registration cache (`apiServiceLister`), modelled as the function
underlying its `Get` by key. -/
def APIServiceLister : Type := String → GetResult APIService

/-- The backing-service cache (`serviceLister`), modelled as the function
underlying `Services(namespace).Get(name)`; `none` stands for any lookup
error (not-found or otherwise), which is all the code distinguishes. -/
def ServiceLister : Type := String → String → Option Service

/-- A call into the external `APIHandlerManager`, the interface with the
two operations `AddAPIService(apiService, destinationHost)` and
`RemoveAPIService(apiServiceName)`. -/
inductive HMCall where
  | addAPIService (apiService : APIService) (destinationHost : String)
  | removeAPIService (apiServiceName : String)
deriving DecidableEq, Repr

/-- `getDestinationHost`: if the registration has no service reference
return `""`; otherwise compute the DNS-style default
`Name ++ "." ++ Namespace ++ ".svc"`, and if the backing-service lookup
succeeds and the service type is ClusterIP, NodePort or LoadBalancer,
return the service's `ClusterIP` instead. -/
def getDestinationHost (serviceLister : ServiceLister) (apiService : APIService) : String :=
  match apiService.Spec.Service with
  | none => ""
  | some ref =>
    let destinationHost := ref.Name ++ "." ++ ref.Namespace ++ ".svc"
    match serviceLister ref.Namespace ref.Name with
    | none => destinationHost
    | some service =>
      if service.Spec.Type' = ServiceTypeClusterIP ∨
         service.Spec.Type' = ServiceTypeNodePort ∨
         service.Spec.Type' = ServiceTypeLoadBalancer then
        service.Spec.ClusterIP
      else
        destinationHost

/-- `sync(key)`: look the key up in the registration cache; on not-found
call `RemoveAPIService(key)` and succeed; on any other lookup error
propagate it with no handler call; if the registration is found but its
Available condition is not true call `RemoveAPIService(key)` and succeed;
otherwise call `AddAPIService(apiService, getDestinationHost(apiService))`
and succeed.  The result is the ordered list of handler-manager calls made
during the invocation, paired with the returned error (`none` = nil). -/
def sync (apiServiceLister : APIServiceLister) (serviceLister : ServiceLister)
    (key : String) : List HMCall × Option String :=
  match apiServiceLister key with
  | .notFound => ([.removeAPIService key], none)
  | .otherError msg => ([], some msg)
  | .found apiService =>
    if IsAPIServiceConditionTrue apiService then
      ([.addAPIService apiService (getDestinationHost serviceLister apiService)], none)
    else
      ([.removeAPIService key], none)

/-- An operation performed by `processNextWorkItem` on the work queue
(or the invocation of the sync function), recorded in order. -/
inductive QueueOp where
  | syncInvoke (key : String)
  | forget (key : String)
  | addRateLimited (key : String)
  | done (key : String)
deriving DecidableEq, Repr

/-- `processNextWorkItem`: `Get()` is modelled by its result — `none`
means `quit` was reported, `some key` delivers a key.  On quit it returns
`false` immediately; otherwise it defers `Done(key)`, invokes the sync
function once, and on nil error calls `Forget(key)`, on error calls
`AddRateLimited(key)`; either way it returns `true`.  The result is the
ordered trace of operations (the deferred `Done` runs last) paired with
the boolean return value. -/
def processNextWorkItem (getResult : Option String) (syncFn : String → Option String) :
    List QueueOp × Bool :=
  match getResult with
  | none => ([], false)
  | some key =>
    match syncFn key with
    | none => ([.syncInvoke key, .forget key, .done key], true)
    | some _ => ([.syncInvoke key, .addRateLimited key, .done key], true)

/-- A payload delivered to a delete event handler.  Go hands the handler
an `interface{}` value: the live typed object (a registration or a
backing service), a `cache.DeletedFinalStateUnknown` tombstone wrapping a
further payload, or anything else. -/
inductive RawObj where
  | apiService (obj : APIService)
  | service (obj : Service)
  | tombstone (inner : RawObj)
  | otherPayload
deriving DecidableEq, Repr

/-- `deleteAPIService(obj)`: cast to a registration, else unwrap a
tombstone and cast its content; on success enqueue the object's key, on
failure log the malformed notification and enqueue nothing.  The result
is the enqueued key (if any) paired with whether a malformed notification
was logged. -/
def deleteAPIService (obj : RawObj) : Option String × Bool :=
  match obj with
  | .apiService castObj => (some castObj.Name, false)
  | .tombstone inner =>
    match inner with
    | .apiService castObj => (some castObj.Name, false)
    | _ => (none, true)
  | _ => (none, true)

/-- `getAPIServicesFor(service)`: linear scan of all currently known
registrations, keeping exactly those whose service reference names the
given service's namespace and name (registrations without a reference are
skipped). -/
def getAPIServicesFor (apiServiceList : List APIService) (service : Service) :
    List APIService :=
  apiServiceList.filter fun apiService =>
    match apiService.Spec.Service with
    | none => false
    | some ref => ref.Namespace == service.Namespace && ref.Name == service.Name

/-- `addService` / `updateService`: enqueue the key of every registration
returned by `getAPIServicesFor` for the changed backing service.  The
result is the list of enqueued keys. -/
def addService (apiServiceList : List APIService) (service : Service) : List String :=
  (getAPIServicesFor apiServiceList service).map APIService.Name

/-- `deleteService(obj)`: cast to a backing service, else unwrap a
tombstone and cast its content; on success enqueue every registration
referencing it, on failure log the malformed notification and enqueue
nothing.  The result is the list of enqueued keys paired with whether a
malformed notification was logged. -/
def deleteService (apiServiceList : List APIService) (obj : RawObj) :
    List String × Bool :=
  match obj with
  | .service castObj => (addService apiServiceList castObj, false)
  | .tombstone inner =>
    match inner with
    | .service castObj => (addService apiServiceList castObj, false)
    | _ => ([], true)
  | _ => ([], true)

/-! ### The registered-endpoint set held by the external handler manager -/

/-- The handler manager's registered-endpoint set: for each key either
absent or exactly one `(registration, destination)` entry. -/
def EndpointSet : Type := String → Option (APIService × String)

/-- Effect of one handler-manager call on the registered-endpoint set:
`AddAPIService` inserts or replaces the entry for the registration's key,
`RemoveAPIService` removes the entry for the key. -/
def applyCall (es : EndpointSet) : HMCall → EndpointSet
  | .addAPIService s dest => fun k => if k = s.Name then some (s, dest) else es k
  | .removeAPIService name => fun k => if k = name then none else es k

/-- One reconciliation event: the cache contents observed by that sync
and the key being synced. -/
structure SyncEvent where
  apiServiceLister : APIServiceLister
  serviceLister : ServiceLister
  key : String

/-- Apply to the endpoint set the handler-manager calls made by one sync. -/
def syncStep (es : EndpointSet) (e : SyncEvent) : EndpointSet :=
  (sync e.apiServiceLister e.serviceLister e.key).1.foldl applyCall es

/-- Run a sequence of syncs against the endpoint set, in order. -/
def runSyncs (es : EndpointSet) : List SyncEvent → EndpointSet
  | [] => es
  | e :: rest => runSyncs (syncStep es e) rest

/-- Well-formedness of a registration cache: looking up a key returns an
object whose name is that key (true of the real lister, whose keys are
the objects' names). -/
def listerWF (apiServiceLister : APIServiceLister) : Prop :=
  ∀ k s, apiServiceLister k = .found s → s.Name = k

/-- Whether a sync event succeeds (returns a nil error). -/
def syncSucceeds (e : SyncEvent) : Bool :=
  (sync e.apiServiceLister e.serviceLister e.key).2.isNone

/-- Whether a sync event is a successful reconciliation of key `k`. -/
def successFor (k : String) (e : SyncEvent) : Bool :=
  e.key == k && syncSucceeds e

/-- The last successful reconciliation of key `k` in a sequence of syncs. -/
def lastSuccessFor (k : String) (events : List SyncEvent) : Option SyncEvent :=
  (events.filter (successFor k)).getLast?

/-- The key an individual handler-manager call touches in the
registered-endpoint set (proof helper). -/
def callKey : HMCall → String
  | .addAPIService s _ => s.Name
  | .removeAPIService n => n

/-! ### Helper lemmas -/

theorem applyCall_other (es : EndpointSet) (c : HMCall) (k : String)
    (h : callKey c ≠ k) : applyCall es c k = es k := by
  cases c with
  | addAPIService s d =>
    have hk : k ≠ s.Name := fun hkk => h hkk.symm
    simp [applyCall, hk]
  | removeAPIService n =>
    have hk : k ≠ n := fun hkk => h hkk.symm
    simp [applyCall, hk]

theorem foldl_applyCall_other (calls : List HMCall) (es : EndpointSet) (k : String)
    (h : ∀ c ∈ calls, callKey c ≠ k) :
    (calls.foldl applyCall es) k = es k := by
  induction calls generalizing es with
  | nil => rfl
  | cons c t ih =>
    rw [List.foldl_cons, ih (applyCall es c) (fun c' hc' => h c' (List.mem_cons_of_mem _ hc'))]
    exact applyCall_other es c k (h c (List.mem_cons_self _ _))

theorem sync_calls_keys (apiServiceLister : APIServiceLister)
    (serviceLister : ServiceLister) (key : String)
    (hwf : listerWF apiServiceLister) :
    ∀ c ∈ (sync apiServiceLister serviceLister key).1, callKey c = key := by
  intro c hc
  cases hg : apiServiceLister key with
  | notFound =>
    simp [sync, hg] at hc
    subst hc
    rfl
  | otherError msg =>
    simp [sync, hg] at hc
  | found s =>
    have hn := hwf key s hg
    cases hav : IsAPIServiceConditionTrue s with
    | true =>
      simp [sync, hg, hav] at hc
      subst hc
      simpa [callKey] using hn
    | false =>
      simp [sync, hg, hav] at hc
      subst hc
      rfl

theorem sync_failed_no_calls (apiServiceLister : APIServiceLister)
    (serviceLister : ServiceLister) (key : String)
    (h : (sync apiServiceLister serviceLister key).2 ≠ none) :
    (sync apiServiceLister serviceLister key).1 = [] := by
  cases hg : apiServiceLister key with
  | notFound => simp [sync, hg] at h
  | otherError msg => simp [sync, hg]
  | found s =>
    exfalso
    apply h
    simp [sync, hg]
    split <;> rfl

theorem syncStep_preserves_other (es : EndpointSet) (e : SyncEvent) (k : String)
    (hwf : listerWF e.apiServiceLister) (h : successFor k e = false) :
    syncStep es e k = es k := by
  unfold syncStep
  cases hke : (e.key == k) with
  | false =>
    have hne : e.key ≠ k := by simpa using hke
    exact foldl_applyCall_other _ es k
      (fun c hc => by rw [sync_calls_keys _ _ _ hwf c hc]; exact hne)
  | true =>
    have hfail : syncSucceeds e = false := by
      rw [successFor, hke, Bool.true_and] at h
      exact h
    have h2 : (sync e.apiServiceLister e.serviceLister e.key).2 ≠ none := by
      intro hnone
      rw [syncSucceeds, hnone] at hfail
      simp at hfail
    rw [sync_failed_no_calls _ _ _ h2]
    rfl

theorem syncStep_success_membership (es : EndpointSet) (e : SyncEvent) (k : String)
    (hwf : listerWF e.apiServiceLister) (h : successFor k e = true) :
    (syncStep es e k).isSome = true ↔
      ∃ s, e.apiServiceLister k = .found s ∧ IsAPIServiceConditionTrue s = true := by
  rw [successFor, Bool.and_eq_true] at h
  have hke : e.key = k := beq_iff_eq.mp h.1
  have hsucc := h.2
  unfold syncStep
  rw [hke]
  cases hg : e.apiServiceLister k with
  | notFound =>
    simp [sync, hg, applyCall]
  | otherError msg =>
    exfalso
    rw [syncSucceeds, hke] at hsucc
    simp [sync, hg] at hsucc
  | found s =>
    have hn := hwf k s hg
    cases hav : IsAPIServiceConditionTrue s with
    | true =>
      simp [sync, hg, hav, applyCall, hn]
    | false =>
      simp [sync, hg, hav, applyCall]

theorem runSyncs_append (es : EndpointSet) (l l' : List SyncEvent) :
    runSyncs es (l ++ l') = runSyncs (runSyncs es l) l' := by
  induction l generalizing es with
  | nil => rfl
  | cons a t ih => exact ih (syncStep es a)

theorem lastSuccessFor_append_singleton (k : String) (l : List SyncEvent) (a : SyncEvent) :
    lastSuccessFor k (l ++ [a]) =
      if successFor k a then some a else lastSuccessFor k l := by
  unfold lastSuccessFor
  rw [List.filter_append]
  cases hsa : successFor k a with
  | true => simp [hsa, List.getLast?_concat]
  | false => simp [hsa]

/-! ### Theorems -/

/-- C1: for every key whose registration is absent from the registration
cache (lookup returns not-found), every one of `n` consecutive syncs of
the key calls `RemoveAPIService(key)` as its only handler-manager call,
never calls `AddAPIService`, and returns success. -/
theorem sync_absent_key_removes_idempotently
    (apiServiceLister : APIServiceLister) (serviceLister : ServiceLister) (key : String)
    (h : apiServiceLister key = .notFound) (n : Nat) :
    ∀ t ∈ List.replicate n (sync apiServiceLister serviceLister key),
      t.1 = [HMCall.removeAPIService key] ∧
      (∀ s d, HMCall.addAPIService s d ∉ t.1) ∧
      t.2 = none := by
  intro t ht
  have hs : sync apiServiceLister serviceLister key = ([HMCall.removeAPIService key], none) := by
    simp [sync, h]
  rw [List.eq_of_mem_replicate ht, hs]
  refine ⟨rfl, ?_, rfl⟩
  intro s d hmem
  simp at hmem

/-- Witness for C1 at a concrete cache with no registrations and three
consecutive syncs of the key "k". -/
theorem sync_absent_key_removes_idempotently_witness :
    ((fun _ => GetResult.notFound) : APIServiceLister) "k" = .notFound ∧
    ∀ t ∈ List.replicate 3 (sync (fun _ => GetResult.notFound) (fun _ _ => none) "k"),
      t.1 = [HMCall.removeAPIService "k"] ∧
      (∀ s d, HMCall.addAPIService s d ∉ t.1) ∧
      t.2 = none :=
  ⟨rfl, sync_absent_key_removes_idempotently (fun _ => GetResult.notFound)
    (fun _ _ => none) "k" rfl 3⟩

/-- C2: for every registration found in the cache whose Available
condition is not true, sync calls `RemoveAPIService(key)` as its only
handler-manager call and returns success, never calling `AddAPIService`
— for any registration, whether or not it carries a service reference. -/
theorem sync_unavailable_removes
    (apiServiceLister : APIServiceLister) (serviceLister : ServiceLister) (key : String)
    (apiService : APIService)
    (hfound : apiServiceLister key = .found apiService)
    (hna : IsAPIServiceConditionTrue apiService = false) :
    sync apiServiceLister serviceLister key = ([HMCall.removeAPIService key], none) ∧
    ∀ s d, HMCall.addAPIService s d ∉ (sync apiServiceLister serviceLister key).1 := by
  have hs : sync apiServiceLister serviceLister key = ([HMCall.removeAPIService key], none) := by
    simp [sync, hfound, hna]
  refine ⟨hs, ?_⟩
  intro s d hmem
  rw [hs] at hmem
  simp at hmem

/-- Witness for C2 at a concrete unavailable registration that does carry
a service reference. -/
theorem sync_unavailable_removes_witness :
    ((fun _ => GetResult.found
        ⟨"r1", ⟨some ⟨"n", "s"⟩⟩, false⟩) : APIServiceLister) "r1" =
      .found ⟨"r1", ⟨some ⟨"n", "s"⟩⟩, false⟩ ∧
    IsAPIServiceConditionTrue ⟨"r1", ⟨some ⟨"n", "s"⟩⟩, false⟩ = false ∧
    sync (fun _ => GetResult.found ⟨"r1", ⟨some ⟨"n", "s"⟩⟩, false⟩)
        (fun _ _ => none) "r1" = ([HMCall.removeAPIService "r1"], none) :=
  ⟨rfl, rfl,
    (sync_unavailable_removes (fun _ => GetResult.found ⟨"r1", ⟨some ⟨"n", "s"⟩⟩, false⟩)
      (fun _ _ => none) "r1" ⟨"r1", ⟨some ⟨"n", "s"⟩⟩, false⟩ rfl rfl).1⟩

/-- C3: the resolver returns `""` when the registration has no service
reference; otherwise, on lookup failure it returns the default
`name ++ "." ++ namespace ++ ".svc"`; on lookup success it returns the
service's cluster-assigned address when the type is ClusterIP, NodePort
or LoadBalancer, and the default DNS-style destination for any other
type. -/
theorem getDestinationHost_resolution
    (serviceLister : ServiceLister) (apiService : APIService) :
    (apiService.Spec.Service = none → getDestinationHost serviceLister apiService = "") ∧
    ∀ ref, apiService.Spec.Service = some ref →
      (serviceLister ref.Namespace ref.Name = none →
        getDestinationHost serviceLister apiService =
          ref.Name ++ "." ++ ref.Namespace ++ ".svc") ∧
      ∀ service, serviceLister ref.Namespace ref.Name = some service →
        ((service.Spec.Type' = ServiceTypeClusterIP ∨
          service.Spec.Type' = ServiceTypeNodePort ∨
          service.Spec.Type' = ServiceTypeLoadBalancer) →
          getDestinationHost serviceLister apiService = service.Spec.ClusterIP) ∧
        (service.Spec.Type' ≠ ServiceTypeClusterIP →
          service.Spec.Type' ≠ ServiceTypeNodePort →
          service.Spec.Type' ≠ ServiceTypeLoadBalancer →
          getDestinationHost serviceLister apiService =
            ref.Name ++ "." ++ ref.Namespace ++ ".svc") := by
  constructor
  · intro h
    simp [getDestinationHost, h]
  · intro ref href
    constructor
    · intro hmiss
      simp [getDestinationHost, href, hmiss]
    · intro service hsvc
      constructor
      · intro htype
        simp [getDestinationHost, href, hsvc, htype]
      · intro h1 h2 h3
        simp [getDestinationHost, href, hsvc, h1, h2, h3]

/-- Witness for C3: a registration referencing service `(ns = "n",
name = "s")` backed by a ClusterIP service with address `10.0.0.5`
resolves to that address. -/
theorem getDestinationHost_resolution_witness :
    (⟨"r1", ⟨some ⟨"n", "s"⟩⟩, true⟩ : APIService).Spec.Service = some ⟨"n", "s"⟩ ∧
    ((fun _ _ => some ⟨"n", "s", ⟨"ClusterIP", "10.0.0.5"⟩⟩) : ServiceLister) "n" "s" =
      some ⟨"n", "s", ⟨"ClusterIP", "10.0.0.5"⟩⟩ ∧
    getDestinationHost (fun _ _ => some ⟨"n", "s", ⟨"ClusterIP", "10.0.0.5"⟩⟩)
      ⟨"r1", ⟨some ⟨"n", "s"⟩⟩, true⟩ = "10.0.0.5" :=
  ⟨rfl, rfl,
    (((getDestinationHost_resolution
        (fun _ _ => some ⟨"n", "s", ⟨"ClusterIP", "10.0.0.5"⟩⟩)
        ⟨"r1", ⟨some ⟨"n", "s"⟩⟩, true⟩).2 ⟨"n", "s"⟩ rfl).2
      ⟨"n", "s", ⟨"ClusterIP", "10.0.0.5"⟩⟩ rfl).1 (Or.inl rfl)⟩

/-- C6: sync returns a non-nil error exactly when the registration-cache
lookup fails with an error other than not-found, and in that case it has
made no handler-manager call at all (it propagates the lookup error). -/
theorem sync_error_iff_lookup_error
    (apiServiceLister : APIServiceLister) (serviceLister : ServiceLister) (key : String) :
    ((sync apiServiceLister serviceLister key).2 ≠ none ↔
      ∃ msg, apiServiceLister key = .otherError msg) ∧
    ∀ msg, apiServiceLister key = .otherError msg →
      sync apiServiceLister serviceLister key = ([], some msg) := by
  cases h : apiServiceLister key with
  | found apiService =>
    have h2 : (sync apiServiceLister serviceLister key).2 = none := by
      simp [sync, h]
      split <;> rfl
    constructor
    · constructor
      · intro hne
        exact absurd h2 hne
      · rintro ⟨msg, hmsg⟩
        simp at hmsg
    · intro msg hmsg
      simp at hmsg
  | notFound =>
    constructor
    · constructor
      · intro hne
        exact absurd (by simp [sync, h]) hne
      · rintro ⟨msg, hmsg⟩
        simp at hmsg
    · intro msg hmsg
      simp at hmsg
  | otherError msg =>
    constructor
    · constructor
      · intro _
        exact ⟨msg, rfl⟩
      · intro _
        simp [sync, h]
    · intro msg' hmsg'
      injection hmsg' with he
      subst he
      simp [sync, h]

/-- Witness for C6: on a cache whose lookup fails with a transient error,
sync returns that error and makes no handler-manager call. -/
theorem sync_error_iff_lookup_error_witness :
    ((fun _ => GetResult.otherError "boom") : APIServiceLister) "k" =
      .otherError "boom" ∧
    sync (fun _ => GetResult.otherError "boom") (fun _ _ => none) "k" =
      ([], some "boom") :=
  ⟨rfl,
    (sync_error_iff_lookup_error (fun _ => GetResult.otherError "boom")
      (fun _ _ => none) "k").2 "boom" rfl⟩

/-- C10: for a registration that is found, Available, and has no service
reference, sync calls `AddAPIService` with the empty string as the
destination host and succeeds — the registration is installed, not
removed. -/
theorem sync_available_no_ref_adds_empty_host
    (apiServiceLister : APIServiceLister) (serviceLister : ServiceLister) (key : String)
    (apiService : APIService)
    (hfound : apiServiceLister key = .found apiService)
    (hav : IsAPIServiceConditionTrue apiService = true)
    (hnoref : apiService.Spec.Service = none) :
    sync apiServiceLister serviceLister key =
      ([HMCall.addAPIService apiService ""], none) := by
  simp [sync, hfound, hav, getDestinationHost, hnoref]

/-- Witness for C10 at a concrete available registration with no service
reference. -/
theorem sync_available_no_ref_adds_empty_host_witness :
    ((fun _ => GetResult.found ⟨"r1", ⟨none⟩, true⟩) : APIServiceLister) "r1" =
      .found ⟨"r1", ⟨none⟩, true⟩ ∧
    IsAPIServiceConditionTrue ⟨"r1", ⟨none⟩, true⟩ = true ∧
    (⟨"r1", ⟨none⟩, true⟩ : APIService).Spec.Service = none ∧
    sync (fun _ => GetResult.found ⟨"r1", ⟨none⟩, true⟩) (fun _ _ => none) "r1" =
      ([HMCall.addAPIService ⟨"r1", ⟨none⟩, true⟩ ""], none) :=
  ⟨rfl, rfl, rfl,
    sync_available_no_ref_adds_empty_host (fun _ => GetResult.found ⟨"r1", ⟨none⟩, true⟩)
      (fun _ _ => none) "r1" ⟨"r1", ⟨none⟩, true⟩ rfl rfl rfl⟩

/-- C4: a backing-service change event enqueues exactly the registrations
whose service reference matches the changed service's namespace and name:
a known registration is kept by the linear scan iff its reference matches;
every matching known registration's key is enqueued; every enqueued key
comes from a matching known registration; and a registration with no
service reference is never kept by the scan for any service. -/
theorem service_event_enqueues_exactly_matching
    (apiServiceList : List APIService) (service : Service) :
    (∀ reg ∈ apiServiceList,
      reg ∈ getAPIServicesFor apiServiceList service ↔
        ∃ ref, reg.Spec.Service = some ref ∧
          ref.Namespace = service.Namespace ∧ ref.Name = service.Name) ∧
    (∀ reg ∈ apiServiceList,
      (∃ ref, reg.Spec.Service = some ref ∧
        ref.Namespace = service.Namespace ∧ ref.Name = service.Name) →
      reg.Name ∈ addService apiServiceList service) ∧
    (∀ k ∈ addService apiServiceList service,
      ∃ reg ∈ apiServiceList, reg.Name = k ∧
        ∃ ref, reg.Spec.Service = some ref ∧
          ref.Namespace = service.Namespace ∧ ref.Name = service.Name) ∧
    (∀ reg, reg.Spec.Service = none →
      reg ∉ getAPIServicesFor apiServiceList service) := by
  have hmem : ∀ reg, reg ∈ getAPIServicesFor apiServiceList service ↔
      reg ∈ apiServiceList ∧
        ∃ ref, reg.Spec.Service = some ref ∧
          ref.Namespace = service.Namespace ∧ ref.Name = service.Name := by
    intro reg
    rw [getAPIServicesFor, List.mem_filter]
    constructor
    · rintro ⟨hin, hp⟩
      refine ⟨hin, ?_⟩
      cases href : reg.Spec.Service with
      | none => rw [href] at hp; cases hp
      | some ref =>
        rw [href] at hp
        simp only [Bool.and_eq_true, beq_iff_eq] at hp
        exact ⟨ref, rfl, hp.1, hp.2⟩
    · rintro ⟨hin, ref, href, hns, hn⟩
      refine ⟨hin, ?_⟩
      rw [href]
      simp only [Bool.and_eq_true, beq_iff_eq]
      exact ⟨hns, hn⟩
  refine ⟨?_, ?_, ?_, ?_⟩
  · intro reg hreg
    rw [hmem reg]
    exact ⟨fun h => h.2, fun h => ⟨hreg, h⟩⟩
  · intro reg hreg hmatch
    rw [addService, List.mem_map]
    exact ⟨reg, (hmem reg).2 ⟨hreg, hmatch⟩, rfl⟩
  · intro k hk
    rw [addService, List.mem_map] at hk
    obtain ⟨reg, hreg, hname⟩ := hk
    rw [hmem reg] at hreg
    exact ⟨reg, hreg.1, hname, hreg.2⟩
  · intro reg hnone hin
    rw [hmem reg] at hin
    obtain ⟨_, ref, href, _⟩ := hin
    rw [hnone] at href
    cases href

/-- Witness for C4: with two registrations referencing different services
and one with no reference, a change of service `(n, s)` enqueues exactly
the key of the registration referencing `(n, s)`. -/
theorem service_event_enqueues_exactly_matching_witness :
    (⟨"r1", ⟨some ⟨"n", "s"⟩⟩, true⟩ : APIService) ∈
      ([⟨"r1", ⟨some ⟨"n", "s"⟩⟩, true⟩, ⟨"r2", ⟨some ⟨"n2", "s"⟩⟩, true⟩,
        ⟨"r3", ⟨none⟩, true⟩] : List APIService) ∧
    (∃ ref, (⟨"r1", ⟨some ⟨"n", "s"⟩⟩, true⟩ : APIService).Spec.Service = some ref ∧
      ref.Namespace = (⟨"n", "s", ⟨"ClusterIP", "1.2.3.4"⟩⟩ : Service).Namespace ∧
      ref.Name = (⟨"n", "s", ⟨"ClusterIP", "1.2.3.4"⟩⟩ : Service).Name) ∧
    "r1" ∈ addService
      [⟨"r1", ⟨some ⟨"n", "s"⟩⟩, true⟩, ⟨"r2", ⟨some ⟨"n2", "s"⟩⟩, true⟩,
        ⟨"r3", ⟨none⟩, true⟩] ⟨"n", "s", ⟨"ClusterIP", "1.2.3.4"⟩⟩ :=
  ⟨by decide, ⟨⟨"n", "s"⟩, rfl, rfl, rfl⟩,
    (service_event_enqueues_exactly_matching
      [⟨"r1", ⟨some ⟨"n", "s"⟩⟩, true⟩, ⟨"r2", ⟨some ⟨"n2", "s"⟩⟩, true⟩,
        ⟨"r3", ⟨none⟩, true⟩] ⟨"n", "s", ⟨"ClusterIP", "1.2.3.4"⟩⟩).2.1
      ⟨"r1", ⟨some ⟨"n", "s"⟩⟩, true⟩ (by decide) ⟨⟨"n", "s"⟩, rfl, rfl, rfl⟩⟩

/-- C7: for every key delivered by `Get()`, the worker step invokes the
sync function once; on success its trace is exactly sync, `Forget(key)`,
`Done(key)` (no `AddRateLimited`); on failure it is exactly sync,
`AddRateLimited(key)`, `Done(key)` (no `Forget`); `Done(key)` appears
exactly once; and the step returns `true` in both cases, while a quit
signal returns `false` with no operation. -/
theorem processNextWorkItem_step
    (key : String) (syncFn : String → Option String) :
    ((processNextWorkItem (some key) syncFn).1.count (QueueOp.syncInvoke key) = 1) ∧
    ((processNextWorkItem (some key) syncFn).1.count (QueueOp.done key) = 1) ∧
    (processNextWorkItem (some key) syncFn).2 = true ∧
    (syncFn key = none →
      (processNextWorkItem (some key) syncFn).1 =
        [QueueOp.syncInvoke key, QueueOp.forget key, QueueOp.done key]) ∧
    (∀ msg, syncFn key = some msg →
      (processNextWorkItem (some key) syncFn).1 =
        [QueueOp.syncInvoke key, QueueOp.addRateLimited key, QueueOp.done key]) ∧
    processNextWorkItem none syncFn = ([], false) := by
  cases hs : syncFn key with
  | none =>
    refine ⟨?_, ?_, ?_, fun _ => ?_, fun msg hmsg => ?_, rfl⟩
    · simp [processNextWorkItem, hs, List.count_cons]
    · simp [processNextWorkItem, hs, List.count_cons]
    · simp [processNextWorkItem, hs]
    · simp [processNextWorkItem, hs]
    · exact absurd hmsg (by simp)
  | some msg =>
    refine ⟨?_, ?_, ?_, fun hn => ?_, fun msg' hmsg' => ?_, rfl⟩
    · simp [processNextWorkItem, hs, List.count_cons]
    · simp [processNextWorkItem, hs, List.count_cons]
    · simp [processNextWorkItem, hs]
    · exact absurd hn (by simp)
    · injection hmsg' with he
      subst he
      simp [processNextWorkItem, hs]

/-- Witness for C7 covering a failing sync of the key "k". -/
theorem processNextWorkItem_step_witness :
    ((fun _ => some "boom") : String → Option String) "k" = some "boom" ∧
    (processNextWorkItem (some "k") (fun _ => some "boom")).1 =
      [QueueOp.syncInvoke "k", QueueOp.addRateLimited "k", QueueOp.done "k"] ∧
    (processNextWorkItem (some "k") (fun _ => some "boom")).2 = true :=
  ⟨rfl,
    (processNextWorkItem_step "k" (fun _ => some "boom")).2.2.2.2.1 "boom" rfl,
    (processNextWorkItem_step "k" (fun _ => some "boom")).2.2.1⟩

/-- C8: a delete notification whose payload is neither the live typed
object nor a tombstone wrapping an object of the expected type is logged
and enqueues nothing, for both the registration and the backing-service
delete handlers; a tombstone wrapping an object of the expected type is
unwrapped and enqueued exactly as a normal delete of that object. -/
theorem delete_handlers_tombstone_behavior
    (apiServiceList : List APIService) (s : APIService) (svc : Service)
    (inner : RawObj) :
    deleteAPIService (.apiService s) = (some s.Name, false) ∧
    deleteAPIService (.tombstone (.apiService s)) = deleteAPIService (.apiService s) ∧
    deleteAPIService (.tombstone (.service svc)) = (none, true) ∧
    deleteAPIService (.tombstone (.tombstone inner)) = (none, true) ∧
    deleteAPIService (.tombstone .otherPayload) = (none, true) ∧
    deleteAPIService (.service svc) = (none, true) ∧
    deleteAPIService .otherPayload = (none, true) ∧
    deleteService apiServiceList (.service svc) =
      (addService apiServiceList svc, false) ∧
    deleteService apiServiceList (.tombstone (.service svc)) =
      deleteService apiServiceList (.service svc) ∧
    deleteService apiServiceList (.tombstone (.apiService s)) = ([], true) ∧
    deleteService apiServiceList (.tombstone (.tombstone inner)) = ([], true) ∧
    deleteService apiServiceList (.tombstone .otherPayload) = ([], true) ∧
    deleteService apiServiceList (.apiService s) = ([], true) ∧
    deleteService apiServiceList .otherPayload = ([], true) :=
  ⟨rfl, rfl, rfl, rfl, rfl, rfl, rfl, rfl, rfl, rfl, rfl, rfl, rfl, rfl⟩

/-- C5: invariant of the registered-endpoint set.  After any sequence of
syncs (each observing its own well-formed cache state), a key is present
in the handler manager's registered-endpoint set iff at the last
successful reconciliation of that key the registration existed in the
cache and its Available condition was true — where `AddAPIService`
inserts/replaces and `RemoveAPIService` removes the entry for the key. -/
theorem endpointSet_registration_invariant
    (es0 : EndpointSet) (events : List SyncEvent) (k : String) :
    (∀ e ∈ events, listerWF e.apiServiceLister) →
    ∀ e, lastSuccessFor k events = some e →
    (((runSyncs es0 events) k).isSome = true ↔
      ∃ s, e.apiServiceLister k = .found s ∧ IsAPIServiceConditionTrue s = true) := by
  induction events using List.reverseRecOn with
  | nil =>
    intro _ e hlast
    simp [lastSuccessFor] at hlast
  | append_singleton l a ih =>
    intro hwf e hlast
    rw [lastSuccessFor_append_singleton] at hlast
    rw [runSyncs_append]
    have hruna : runSyncs (runSyncs es0 l) [a] = syncStep (runSyncs es0 l) a := rfl
    rw [hruna]
    have hma : a ∈ l ++ [a] := List.mem_append_right _ (List.mem_singleton.mpr rfl)
    cases hsa : successFor k a with
    | true =>
      rw [hsa, if_pos rfl] at hlast
      injection hlast with he
      subst he
      exact syncStep_success_membership _ a k (hwf a hma) hsa
    | false =>
      rw [hsa] at hlast
      rw [if_neg (by simp)] at hlast
      rw [syncStep_preserves_other _ a k (hwf a hma) hsa]
      exact ih (fun e' he' => hwf e' (List.mem_append_left _ he')) e hlast

/-- Concrete sync event used by the invariant witness: the cache holds a
single available registration "r1" with no service reference, and "r1"
is the key being synced. -/
def witnessEvent : SyncEvent :=
  ⟨fun k => if k = "r1" then .found ⟨"r1", ⟨none⟩, true⟩ else .notFound,
   fun _ _ => none, "r1"⟩

/-- Witness for C5: one successful sync of "r1" against a cache holding
the available registration "r1". -/
theorem endpointSet_registration_invariant_witness :
    (∀ e ∈ [witnessEvent], listerWF e.apiServiceLister) ∧
    lastSuccessFor "r1" [witnessEvent] = some witnessEvent ∧
    (((runSyncs (fun _ => none) [witnessEvent]) "r1").isSome = true ↔
      ∃ s, witnessEvent.apiServiceLister "r1" = .found s ∧
        IsAPIServiceConditionTrue s = true) := by
  have hwf : ∀ e ∈ [witnessEvent], listerWF e.apiServiceLister := by
    intro e he
    rw [List.mem_singleton] at he
    subst he
    intro k s h
    simp only [witnessEvent] at h
    by_cases hk : k = "r1"
    · subst hk
      rw [if_pos rfl] at h
      injection h with hobj
      rw [← hobj]
    · rw [if_neg hk] at h
      cases h
  refine ⟨hwf, rfl, ?_⟩
  exact endpointSet_registration_invariant (fun _ => none) [witnessEvent] "r1" hwf
    witnessEvent rfl

end KubeAggregator
